import Mathlib

/-!
Verification development for the intent-swap relayer
(packages/relayer/index.js, class IntentRelayer) and the ledger contract
surface it drives (packages/hardhat/contracts/IntentSwap.sol).

Shallow embedding conventions:
* Machine integers: ledger-side uint256 quantities are `Nat`; quantities
  held in JS BigNumbers that could in principle be negative (the fields of
  an externally supplied signed intent) are `Int`.  Range constraints
  (address width, uint256 bounds) are explicit checks exactly where the
  ethers ABI coder enforces them.
* Cryptography is modelled symbolically (Dolev-Yao style): keccak256 of an
  ABI encoding is injective, so a digest is the tuple of encoded values
  itself; an ECDSA signature is either a constructor `ecdsa signer digest`
  or malformed bytes.  Recovering with a digest different from the signed
  one yields a distinguished out-of-range address, standing for the
  negligible-probability event that stray recovery hits a chosen address.
* Network effects (gas price, ledger reads, transaction outcome) are
  explicit inputs: an `Env` record for reads and a `TxOutcome` oracle for
  each submission's fate.  Fallible JS code that throws is embedded with
  `Except`; the relayer's try/catch blocks become `match` on those values.
* Error messages are the source's literal strings with numeric
  interpolations elided (digits can never contain the substring "nonce"
  that the catch handler searches for).
-/

set_option maxRecDepth 8000
set_option maxHeartbeats 1000000

deriving instance DecidableEq for Except

/-- Bound 2^160, the number of 20-byte addresses. -/
def ADDR_BOUND : Nat := 2 ^ 160

/-- Bound 2^256, the uint256 range used by the ABI coder. -/
def UINT256_BOUND : Int := 2 ^ 256

/-- An address-typed JS value: either a hex string denoting the number `n`
(well-formed when `n < 2^160`), or a string that is not an address at all.
`ethers.utils.isAddress` distinguishes the two. -/
inductive Addr
  | addr (n : Nat)
  | malformed (s : String)
deriving DecidableEq

/-- Embeds `ethers.utils.isAddress`: true exactly for a well-formed 20-byte
address. -/
def isAddress : Addr → Bool
  | Addr.addr n => decide (n < ADDR_BOUND)
  | Addr.malformed _ => false

/-- The numeric value of a well-formed address, `none` when the ABI coder
would reject it. -/
def addrNat : Addr → Option Nat
  | Addr.addr n => if n < ADDR_BOUND then some n else none
  | Addr.malformed _ => none

/-- Embeds `ethers.constants.AddressZero` (also the contract's `ETH_ADDRESS`). -/
def ethAddr : Addr := Addr.addr 0

/-- An off-ledger signed intent: the seven EIP-712 message fields, in the
source's order (relayer: SWAP_TYPEHASH; contract: struct SwapIntent). -/
structure SignedIntent where
  fromToken : Addr
  toToken : Addr
  amountIn : Int
  minAmountOut : Int
  recipient : Addr
  deadline : Int
  nonce : Int
deriving DecidableEq

/-- A ledger-stored intent as returned by `contract.getIntent(id)`
(id 0 means absent). -/
structure StoredIntent where
  id : Nat
  creator : Addr
  fromToken : Addr
  toToken : Addr
  amountIn : Nat
  minAmountOut : Nat
  deadline : Int
  fulfilled : Bool
  cancelled : Bool
deriving DecidableEq

/-- The zero record `getIntent` returns for an absent id. -/
def absentIntent : StoredIntent :=
  ⟨0, ethAddr, ethAddr, ethAddr, 0, 0, 0, false, false⟩

/-- Symbolic EIP-712 digest: keccak256 over the ABI encoding is injective,
so the digest is the tuple of the domain separator and the seven encoded
field values. -/
structure Digest where
  dom : Nat
  fromToken : Nat
  toToken : Nat
  amountIn : Int
  minAmountOut : Int
  recipient : Nat
  deadline : Int
  nonce : Int
deriving DecidableEq

/-- A signature blob: either genuine ECDSA output of `signer` over
`signed`, or bytes that are not a signature (wrong length, junk). -/
inductive Signature
  | ecdsa (signer : Nat) (signed : Digest)
  | garbage (bytes : String)
deriving DecidableEq

/-- Symbolic stand-in for the address recovered from a well-formed
signature checked against a digest it did not sign: out of the address
range, so it can never equal a well-formed recipient.  This models the
negligible-probability event of stray ECDSA recovery hitting a chosen
address. -/
def strayRecoveredAddr : Nat := ADDR_BOUND

/-- Is `x` encodable as uint256?  The ethers ABI coder throws
"value out-of-bounds" otherwise. -/
def uint256Ok (x : Int) : Bool := decide (0 ≤ x) && decide (x < UINT256_BOUND)

/-- The digest `verifySignature` builds: keccak256 of the struct hash of
the seven fields under the domain separator (relayer lines 209-239).
Errors when the ABI coder would throw (malformed address, out-of-range
numeric). -/
def computeDigest (dom : Nat) (i : SignedIntent) : Except String Digest :=
  match addrNat i.fromToken, addrNat i.toToken, addrNat i.recipient with
  | some f, some t, some r =>
    if uint256Ok i.amountIn && uint256Ok i.minAmountOut &&
        uint256Ok i.deadline && uint256Ok i.nonce then
      Except.ok ⟨dom, f, t, i.amountIn, i.minAmountOut, r, i.deadline, i.nonce⟩
    else
      Except.error ("value out-of-bounds")
  | _, _, _ => Except.error ("invalid address")

/-- Embeds `ethers.utils.recoverAddress(digest, signature)`: throws on malformed
bytes; otherwise deterministically yields the signer when the digest
matches, and a stray address when it does not. -/
def recoverAddress (d : Digest) : Signature → Except String Nat
  | Signature.ecdsa a d0 => Except.ok (if d0 = d then a else strayRecoveredAddr)
  | Signature.garbage _ => Except.error ("invalid signature bytes")

/-- Digest computation followed by recovery — the body of the `try` block
in `verifySignature` (relayer lines 208-242). -/
def digestRecover (dom : Nat) (i : SignedIntent) (s : Signature) : Except String Nat :=
  match computeDigest dom i with
  | Except.error e => Except.error e
  | Except.ok d => recoverAddress d s

/-- Embeds `IntentRelayer.verifySignature` (relayer lines 207-247): the whole body
is wrapped in try/catch returning false on any error; on success it
compares the recovered address with the recipient (lower-cased hex
comparison, i.e. numeric equality). -/
def verifySignature (dom : Nat) (i : SignedIntent) (s : Signature) : Bool :=
  match digestRecover dom i s with
  | Except.error _ => false
  | Except.ok a =>
    match addrNat i.recipient with
    | some r => decide (a = r)
    | none => false

/-- Embeds `IntentRelayer.getSignedIntentHash` (relayer lines 249-272): keccak256
of the ABI encoding of the seven fields.  Symbolically the hash is the
intent itself (keccak injective); the encoding throws — uncaught — exactly
when a field is unencodable. -/
def getSignedIntentHash (i : SignedIntent) : Except String SignedIntent :=
  if isAddress i.fromToken && isAddress i.toToken && isAddress i.recipient &&
      uint256Ok i.amountIn && uint256Ok i.minAmountOut &&
      uint256Ok i.deadline && uint256Ok i.nonce then
    Except.ok i
  else
    Except.error ("value out-of-bounds")

/-- The distinct errors `validateSignedIntent` can throw, one per `throw`
site, in source order. -/
inductive VErr
  | missing
  | invalidAddress
  | invalidAmounts
  | expired
  | abiEncoding
  | alreadyProcessed
  | invalidSignature
  | nonceMismatch
deriving DecidableEq

/-- The thrown Error's `.message` for each rejection (source strings;
numeric interpolations elided — they are digits and punctuation and cannot
contain the substring "nonce"). -/
def VErr.message : VErr → String
  | VErr.missing => "Missing intent or signature"
  | VErr.invalidAddress => "Invalid token or recipient address"
  | VErr.invalidAmounts => "Invalid amounts"
  | VErr.expired => "Intent expired"
  | VErr.abiEncoding => "value out-of-bounds"
  | VErr.alreadyProcessed => "Intent already processed"
  | VErr.invalidSignature => "Invalid signature"
  | VErr.nonceMismatch => "Invalid nonce. Expected: (ledger), Got: (intent)"

/-- Embeds `IntentRelayer.validateSignedIntent` (relayer lines 157-204), with the
checks in the source's order: presence, addresses, amounts, deadline,
dedup-registry hash, signature, and only then the ledger nonce.
`dom` is the relayer's domain separator, `now` the current unix time,
`nonces` the ledger's per-recipient counters, `dedup` the
`processedSignedIntents` set. -/
def validateSignedIntent (dom : Nat) (now : Int) (nonces : Addr → Nat)
    (dedup : List SignedIntent) (i : SignedIntent) (s : Option Signature) :
    Except VErr Unit :=
  match s with
  | none => Except.error VErr.missing
  | some sg =>
    if !(isAddress i.fromToken) || !(isAddress i.toToken) || !(isAddress i.recipient) then
      Except.error VErr.invalidAddress
    else if i.amountIn ≤ 0 ∨ i.minAmountOut ≤ 0 then
      Except.error VErr.invalidAmounts
    else if i.deadline ≤ now then
      Except.error VErr.expired
    else
      match getSignedIntentHash i with
      | Except.error _ => Except.error VErr.abiEncoding
      | Except.ok h =>
        if h ∈ dedup then
          Except.error VErr.alreadyProcessed
        else if !(verifySignature dom i sg) then
          Except.error VErr.invalidSignature
        else if i.nonce ≠ (nonces i.recipient : Int) then
          Except.error VErr.nonceMismatch
        else
          Except.ok ()

/-- Does string `s` contain `pat` as a substring?  Embeds JS
`s.includes(pat)` used by the catch handlers. -/
def strContains (s pat : String) : Bool :=
  s.toList.tails.any (fun t => pat.toList.isPrefixOf t)

/-- A caught JS error: optional ethers error code plus message. -/
structure ExecError where
  code : Option String
  message : String
deriving DecidableEq

/-- The catch handlers' classification (relayer lines 333, 476):
`error.code === "NONCE_EXPIRED" || error.message.includes("nonce")`. -/
def errNonceRelated (e : ExecError) : Bool :=
  (e.code == some ("NONCE_EXPIRED")) || strContains e.message ("nonce")

/-- Fate of a submitted transaction, as observed by
`await contract.<call>` / `await tx.wait()`: confirmation, or a thrown
error (node rejection, revert, network failure). -/
inductive TxOutcome
  | confirmed
  | failed (e : ExecError)
deriving DecidableEq

/-- Which ledger-mutating call a transaction carries. -/
inductive TxKind
  | fulfillIntent (id : Nat)
  | executeSwap (i : SignedIntent) (s : Signature)
deriving DecidableEq

/-- A transaction handed to the ledger client, with the options the
relayer attaches (`value` is `none` when the options omit it, i.e. 0). -/
structure Tx where
  kind : TxKind
  value : Option Int
  gasLimit : Nat
  gasPrice : Nat
  nonce : Nat
deriving DecidableEq

/-- Configuration read from the environment (relayer lines 10-18). -/
structure Config where
  maxGasPrice : Nat
  gasLimit : Nat
  minProfitWei : Nat

/-- Defaults: MAX_GAS_PRICE 50 gwei, GAS_LIMIT 500000,
MIN_PROFIT_ETH 0.001 ether (in wei). -/
def defaultConfig : Config :=
  ⟨50 * 10 ^ 9, 500000, 10 ^ 15⟩

/-- The external world as read by the relayer during one processing step:
current time, gas price, ledger contents, the relayer account's
authoritative transaction count, and the gas-estimation results. -/
structure Env where
  now : Int
  gasPrice : Nat
  dom : Nat
  nextIntentId : Nat
  intents : Nat → StoredIntent
  nonces : Addr → Nat
  txCount : Nat
  estimateFulfill : Nat → Option Nat
  estimateSigned : Option Nat

/-- The relayer's process-local mutable state: the two dedup sets and the
local outgoing-transaction sequence counter (`this.processedIntents`,
`this.processedSignedIntents`, `this.nonce`). -/
structure RelayerState where
  processedIntents : List Nat
  processedSignedIntents : List SignedIntent
  nonce : Nat
deriving DecidableEq

/-- Embeds `this.processedIntents.add(id)`. -/
def markStored (id : Nat) (st : RelayerState) : RelayerState :=
  ⟨id :: st.processedIntents, st.processedSignedIntents, st.nonce⟩

/-- What an execution method returns to its caller:
`{ success, error }`. -/
structure ExecResult where
  success : Bool
  error : Option ExecError
deriving DecidableEq

/-- Result, post-state and submitted transactions of one execution-engine
method call. -/
structure StepOut where
  result : ExecResult
  state : RelayerState
  txs : List Tx

/-- The "Gas price too high: (gwei)" error thrown by both execution paths
(numeric suffix elided; it cannot contain "nonce"). -/
def gasTooHighErr : ExecError := ⟨none, "Gas price too high: (gwei)"⟩

/-- The error a failed `estimateGas.fulfillIntent` propagates (message
elided to a representative ethers text without the substring "nonce"). -/
def estimateFailedErr : ExecError := ⟨none, "cannot estimate gas"⟩

/-- The try-block of `IntentRelayer.executeSignedSwap` (relayer lines
278-325): validate, gas-price ceiling, gas estimate with fallback to
GAS_LIMIT, attach value for ETH-source intents, submit with the local
sequence counter, await the outcome; on confirmation record the hash and
advance the counter.  Returns the thrown error, the state, and the
transactions submitted (a transaction submitted before a failure stays
submitted). -/
def trySignedSwap (cfg : Config) (env : Env) (o : TxOutcome)
    (st : RelayerState) (i : SignedIntent) (s : Signature) :
    Except ExecError Unit × RelayerState × List Tx :=
  match validateSignedIntent env.dom env.now env.nonces
      st.processedSignedIntents i (some s) with
  | Except.error v => (Except.error ⟨none, v.message⟩, st, [])
  | Except.ok _ =>
    if cfg.maxGasPrice < env.gasPrice then
      (Except.error gasTooHighErr, st, [])
    else
      let gasLimit := match env.estimateSigned with
        | some g => g * 120 / 100
        | none => cfg.gasLimit
      let tx : Tx :=
        ⟨TxKind.executeSwap i s,
          if i.fromToken = ethAddr then some i.amountIn else none,
          gasLimit, env.gasPrice, st.nonce⟩
      match o with
      | TxOutcome.confirmed =>
        (Except.ok (),
          ⟨st.processedIntents, i :: st.processedSignedIntents, st.nonce + 1⟩,
          [tx])
      | TxOutcome.failed e => (Except.error e, st, [tx])

/-- The catch handler shared verbatim by `executeSignedSwap` (relayer
lines 326-339) and `fulfillStoredIntent` (relayer lines 472-482): report
success or failure, and on an error classified as nonce-related refresh
the local sequence counter from the ledger's transaction count. -/
def catchNonce (env : Env)
    (r : Except ExecError Unit × RelayerState × List Tx) : StepOut :=
  match r with
  | (Except.ok _, st1, txs) => ⟨⟨true, none⟩, st1, txs⟩
  | (Except.error e, st1, txs) =>
    ⟨⟨false, some e⟩,
      if errNonceRelated e then
        ⟨st1.processedIntents, st1.processedSignedIntents, env.txCount⟩
      else st1,
      txs⟩

/-- Embeds `IntentRelayer.executeSignedSwap` (relayer lines 275-340): the try
block plus the catch handler. -/
def executeSignedSwap (cfg : Config) (env : Env) (o : TxOutcome)
    (st : RelayerState) (i : SignedIntent) (s : Signature) : StepOut :=
  catchNonce env (trySignedSwap cfg env o st i s)

/-- The try-block of `IntentRelayer.fulfillStoredIntent` (relayer lines
436-471): gas-price ceiling, gas estimate (a failed estimate propagates —
no fallback on this path), submit with the local counter, await; on
confirmation record the id and advance the counter. -/
def tryFulfill (cfg : Config) (env : Env) (o : TxOutcome)
    (st : RelayerState) (id : Nat) :
    Except ExecError Unit × RelayerState × List Tx :=
  if cfg.maxGasPrice < env.gasPrice then
    (Except.error gasTooHighErr, st, [])
  else
    match env.estimateFulfill id with
    | none => (Except.error estimateFailedErr, st, [])
    | some g =>
      let tx : Tx := ⟨TxKind.fulfillIntent id, none, g * 120 / 100,
        env.gasPrice, st.nonce⟩
      match o with
      | TxOutcome.confirmed =>
        (Except.ok (),
          ⟨id :: st.processedIntents, st.processedSignedIntents, st.nonce + 1⟩,
          [tx])
      | TxOutcome.failed e => (Except.error e, st, [tx])

/-- Embeds `IntentRelayer.fulfillStoredIntent` (relayer lines 435-483): try block
plus the same catch handler as the signed path.  Note: it never consults
the dedup registry before submitting. -/
def fulfillStoredIntent (cfg : Config) (env : Env) (o : TxOutcome)
    (st : RelayerState) (id : Nat) : StepOut :=
  catchNonce env (tryFulfill cfg env o st id)

/-- Embeds `IntentRelayer.isIntentProfitable` (relayer lines 413-433): reject
below a hardcoded `parseEther("0.01")` floor, else accept exactly when
`gasPrice * GAS_LIMIT < amountIn.div(10)` (BigNumber division truncates).
The configured MIN_PROFIT_WEI is never consulted here. -/
def isIntentProfitable (cfg : Config) (env : Env) (i : StoredIntent) : Bool :=
  if i.amountIn < 10 ^ 16 then false
  else decide (env.gasPrice * cfg.gasLimit < i.amountIn / 10)

/-- The identifiers the scan of `getUnfulfilledIntents` visits, in visit
order: `for (let i = max(1, next-100); i < next; i++)`. -/
def scanIds (next : Nat) : List Nat :=
  List.range' (max 1 (next - 100)) (next - max 1 (next - 100))

/-- The loop body of `getUnfulfilledIntents` (relayer lines 376-404) over
an explicit id list: skip registry members; mark-and-skip absent, terminal
or expired intents; collect the profitable remainder in visit order. -/
def scanLoop (cfg : Config) (env : Env) :
    List Nat → RelayerState → List (Nat × StoredIntent) × RelayerState
  | [], st => ([], st)
  | i :: rest, st =>
    if i ∈ st.processedIntents then
      scanLoop cfg env rest st
    else
      let it := env.intents i
      if it.id = 0 || it.fulfilled || it.cancelled then
        scanLoop cfg env rest (markStored i st)
      else if it.deadline < env.now then
        scanLoop cfg env rest (markStored i st)
      else if isIntentProfitable cfg env it then
        let r := scanLoop cfg env rest st
        ((i, it) :: r.fst, r.snd)
      else
        scanLoop cfg env rest st

/-- Embeds `IntentRelayer.getUnfulfilledIntents` (relayer lines 368-411). -/
def getUnfulfilledIntents (cfg : Config) (env : Env) (st : RelayerState) :
    List (Nat × StoredIntent) × RelayerState :=
  scanLoop cfg env (scanIds env.nextIntentId) st

/-- Embeds `IntentRelayer.processSingleStoredIntent` (relayer lines 485-516), the
body the IntentCreated push handler runs directly: registry check, fetch,
terminal/deadline checks, profitability, then fulfillment. -/
def processSingleStoredIntent (cfg : Config) (env : Env) (o : TxOutcome)
    (st : RelayerState) (id : Nat) : RelayerState × List Tx :=
  if id ∈ st.processedIntents then (st, [])
  else
    let it := env.intents id
    if it.id = 0 || it.fulfilled || it.cancelled then (markStored id st, [])
    else if it.deadline < env.now then (markStored id st, [])
    else if isIntentProfitable cfg env it then
      let r := fulfillStoredIntent cfg env o st id
      (r.state, r.txs)
    else (st, [])

/-- The fulfilment loop of `IntentRelayer.processStoredIntents` (relayer
lines 534-544): fulfill each collected intent in order, threading the
state; `outs` supplies each submission's fate. -/
def fulfillList (cfg : Config) (env : Env) :
    List TxOutcome → List (Nat × StoredIntent) → RelayerState →
    RelayerState × List Tx
  | _, [], st => (st, [])
  | outs, (id, _) :: rest, st =>
    let r := fulfillStoredIntent cfg env (outs.headD TxOutcome.confirmed) st id
    let next := fulfillList cfg env outs.tail rest r.state
    (next.fst, r.txs ++ next.snd)

/-- One realizable interleaving of the two discovery triggers on the same
cycle.  `processStoredIntents` first awaits `getUnfulfilledIntents`, then
awaits each fulfillment; the IntentCreated push handler (installed by
`setupEventListeners`, relayer lines 124-142) invokes
`processSingleStoredIntent` directly — there is no queue between the two
triggers — so on the JS event loop it can run to completion at any await
point in between.  Here: the scan collects its list, the push handler for
`id` then runs to completion (outcome `o1`), and the scheduled loop then
fulfills its previously collected list (outcomes `o2`). -/
def raceScenario (cfg : Config) (env : Env) (o1 : TxOutcome)
    (o2 : List TxOutcome) (st : RelayerState) (id : Nat) :
    RelayerState × List Tx :=
  let scan := getUnfulfilledIntents cfg env st
  let push := processSingleStoredIntent cfg env o1 scan.snd id
  let loop := fulfillList cfg env o2 scan.fst push.fst
  (loop.fst, push.snd ++ loop.snd)

/-- Number of fulfillment transactions for `id` among `txs`. -/
def countFulfillTx (txs : List Tx) (id : Nat) : Nat :=
  (txs.filter (fun t => decide (t.kind = TxKind.fulfillIntent id))).length

/-- Embeds `IntentSwap.executeSwap` (contract lines 334-407), up to and including
the `msg.value` requires, each in source order; on success the contract
then increments `nonces[intent.recipient]` and performs the venue swap
(out of scope — the revalidation fixtures model the post-execution
counter explicitly). -/
def contractExecuteSwap (nonces : Addr → Nat) (blockTimestamp : Int)
    (dom : Nat) (i : SignedIntent) (s : Signature) (msgValue : Int) :
    Except String Unit :=
  if ¬ (blockTimestamp ≤ i.deadline) then Except.error ("Intent expired")
  else if i.nonce ≠ (nonces i.recipient : Int) then Except.error ("Invalid nonce")
  else if i.recipient = Addr.addr 0 then Except.error ("Invalid recipient")
  else if i.toToken = Addr.addr 0 then Except.error ("Invalid destination token")
  else if i.fromToken = i.toToken then Except.error ("Same token swap not allowed")
  else if i.amountIn ≤ 0 then Except.error ("Invalid amount")
  else if i.minAmountOut ≤ 0 then Except.error ("Invalid min amount out")
  else
    match digestRecover dom i s with
    | Except.error _ => Except.error ("ECDSA: invalid signature")
    | Except.ok a =>
      if addrNat i.recipient ≠ some a then Except.error ("Invalid signer")
      else if i.fromToken = ethAddr then
        if msgValue ≠ i.amountIn then Except.error ("Incorrect ETH amount")
        else Except.ok ()
      else
        if msgValue ≠ 0 then Except.error ("ETH not expected for token swap")
        else Except.ok ()

/-- Modelled from the spec: the stored-intent feed as §4.5 words it —
"scans a bounded window of the most recently created identifiers
(configurable window size) backward from the latest counter value,
skipping any already terminal in the Dedup Registry, and yields the
remainder to the pipeline".  Used only to compare against the code's
`getUnfulfilledIntents`. -/
def backwardScanSpec (windowSize : Nat) (env : Env) (st : RelayerState) :
    List Nat :=
  ((List.range' (max 1 (env.nextIntentId - windowSize))
      (env.nextIntentId - max 1 (env.nextIntentId - windowSize))).reverse).filter
    (fun i => !(decide (i ∈ st.processedIntents)))

/-- The filter that characterizes which scanned identifiers
`getUnfulfilledIntents` yields, evaluated against the registry as it was
when the scan started. -/
def keepStored (cfg : Config) (env : Env) (st : RelayerState) (i : Nat) : Bool :=
  !(decide (i ∈ st.processedIntents)) &&
  (!(decide ((env.intents i).id = 0)) && !(env.intents i).fulfilled &&
    !(env.intents i).cancelled) &&
  !(decide ((env.intents i).deadline < env.now)) &&
  isIntentProfitable cfg env (env.intents i)

/- Concrete fixtures for the scenario claims.  Unix time 1000, chain
domain separator 7, relayer account with ledger transaction count 0. -/

/-- The relayer's empty initial state. -/
def st0 : RelayerState := ⟨[], [], 0⟩

/-- The spec §8 scenario intent: ETH source, amountIn 100, minAmountOut
90, recipient `0x…05` with current ledger nonce 0, deadline now+3600. -/
def c3Intent : SignedIntent :=
  { fromToken := ethAddr, toToken := Addr.addr 2, amountIn := 100,
    minAmountOut := 90, recipient := Addr.addr 5, deadline := 4600,
    nonce := 0 }

/-- The digest `computeDigest 7 c3Intent` produces. -/
def c3Digest : Digest := ⟨7, 0, 2, 100, 90, 5, 4600, 0⟩

/-- A genuine signature by the recipient over `c3Digest`. -/
def c3Sig : Signature := Signature.ecdsa 5 c3Digest

/-- Environment for the signed-intent scenarios: gas price 1 gwei (under
the 50 gwei ceiling), all ledger nonce counters 0. -/
def env3 : Env :=
  { now := 1000, gasPrice := 10 ^ 9, dom := 7, nextIntentId := 1,
    intents := fun _ => absentIntent, nonces := fun _ => 0, txCount := 0,
    estimateFulfill := fun _ => some 100000, estimateSigned := some 100000 }

/-- The ledger nonce map after the scenario execution consumed nonce 0 of
recipient `0x…05` (the contract's `nonces[intent.recipient]++`). -/
def nonces3After : Addr → Nat :=
  fun a => if a = Addr.addr 5 then 1 else 0

/-- Fixture `c3Intent` with its nonce replaced by 9 (mismatching the ledger's 0),
still genuinely signed by the recipient. -/
def c5Intent : SignedIntent :=
  { fromToken := ethAddr, toToken := Addr.addr 2, amountIn := 100,
    minAmountOut := 90, recipient := Addr.addr 5, deadline := 4600,
    nonce := 9 }

/-- The digest of `c5Intent` and the recipient's genuine signature on it. -/
def c5Sig : Signature := Signature.ecdsa 5 ⟨7, 0, 2, 100, 90, 5, 4600, 9⟩

/-- Relayer state whose local sequence counter (5) differs from the
ledger's transaction count in `env5` (3). -/
def st5 : RelayerState := ⟨[], [], 5⟩

/-- Fixture `env3` with the relayer account's ledger transaction count at 3. -/
def env5 : Env :=
  { now := 1000, gasPrice := 10 ^ 9, dom := 7, nextIntentId := 1,
    intents := fun _ => absentIntent, nonces := fun _ => 0, txCount := 3,
    estimateFulfill := fun _ => some 100000, estimateSigned := some 100000 }

/-- A live, profitable stored intent with identifier `n`. -/
def liveStored (n : Nat) : StoredIntent :=
  { id := n, creator := Addr.addr 9, fromToken := ethAddr,
    toToken := Addr.addr 2, amountIn := 10 ^ 18, minAmountOut := 1,
    deadline := 100000, fulfilled := false, cancelled := false }

/-- Environment for the dual-trigger race: one live stored intent, id 1. -/
def env1 : Env :=
  { now := 1000, gasPrice := 10 ^ 9, dom := 7, nextIntentId := 2,
    intents := fun i => if i = 1 then liveStored 1 else absentIntent,
    nonces := fun _ => 0, txCount := 0,
    estimateFulfill := fun _ => some 100000, estimateSigned := some 100000 }

/-- The revert the ledger reports for the duplicate fulfillment. -/
def alreadyFulfilledErr : ExecError :=
  ⟨none, "execution reverted: Intent already fulfilled"⟩

/-- Environment for the scan-order claim: latest counter 5, identifiers 3
and 4 live and profitable, 1 and 2 already in the registry. -/
def env8 : Env :=
  { now := 1000, gasPrice := 10 ^ 9, dom := 7, nextIntentId := 5,
    intents := fun i => if i = 3 then liveStored 3 else
      if i = 4 then liveStored 4 else absentIntent,
    nonces := fun _ => 0, txCount := 0,
    estimateFulfill := fun _ => some 100000, estimateSigned := some 100000 }

/-- Registry already holding identifiers 1 and 2. -/
def st8 : RelayerState := ⟨[1, 2], [], 0⟩












lemma addrNat_some (a : Addr) (n : Nat) (h : addrNat a = some n) :
    a = Addr.addr n ∧ n < ADDR_BOUND := by
  cases a with
  | addr m =>
    by_cases hm : m < ADDR_BOUND
    · simp [addrNat, hm] at h
      exact ⟨by rw [h], h ▸ hm⟩
    · simp [addrNat, hm] at h
  | malformed s => simp [addrNat] at h

lemma computeDigest_ok_elim (dom : Nat) (i : SignedIntent) (d : Digest)
    (h : computeDigest dom i = Except.ok d) :
    i.fromToken = Addr.addr d.fromToken ∧ i.toToken = Addr.addr d.toToken ∧
    i.recipient = Addr.addr d.recipient ∧ i.amountIn = d.amountIn ∧
    i.minAmountOut = d.minAmountOut ∧ i.deadline = d.deadline ∧
    i.nonce = d.nonce := by
  unfold computeDigest at h
  rcases hf : addrNat i.fromToken with _ | f <;> rw [hf] at h
  · cases h
  rcases ht : addrNat i.toToken with _ | t <;> rw [ht] at h
  · cases h
  rcases hr : addrNat i.recipient with _ | r <;> rw [hr] at h
  · cases h
  dsimp only at h
  by_cases hc : (uint256Ok i.amountIn && uint256Ok i.minAmountOut &&
      uint256Ok i.deadline && uint256Ok i.nonce) = true
  · rw [if_pos hc] at h
    cases h
    exact ⟨(addrNat_some _ _ hf).1, (addrNat_some _ _ ht).1,
      (addrNat_some _ _ hr).1, rfl, rfl, rfl, rfl⟩
  · rw [if_neg hc] at h
    cases h

lemma computeDigest_inj (dom : Nat) (i j : SignedIntent) (d : Digest)
    (hi : computeDigest dom i = Except.ok d)
    (hj : computeDigest dom j = Except.ok d) : i = j := by
  obtain ⟨a1, a2, a3, a4, a5, a6, a7⟩ := computeDigest_ok_elim dom i d hi
  obtain ⟨b1, b2, b3, b4, b5, b6, b7⟩ := computeDigest_ok_elim dom j d hj
  cases i; cases j; simp_all

lemma verify_true_elim (dom : Nat) (i : SignedIntent) (s : Signature)
    (h : verifySignature dom i s = true) :
    ∃ d r, computeDigest dom i = Except.ok d ∧ addrNat i.recipient = some r ∧
      s = Signature.ecdsa r d := by
  unfold verifySignature digestRecover at h
  rcases hd : computeDigest dom i with e | d <;> rw [hd] at h
  · simp at h
  cases s with
  | garbage g => simp [recoverAddress] at h
  | ecdsa a d0 =>
    simp only [recoverAddress] at h
    rcases hr : addrNat i.recipient with _ | r <;> rw [hr] at h
    · simp at h
    simp only [decide_eq_true_eq] at h
    by_cases hdd : d0 = d
    · rw [if_pos hdd] at h
      exact ⟨d, r, rfl, rfl, by rw [hdd, h]⟩
    · rw [if_neg hdd] at h
      have hlt := (addrNat_some _ _ hr).2
      rw [← h] at hlt
      exact absurd hlt (lt_irrefl _)

lemma verify_garbage_false (dom : Nat) (i : SignedIntent) (g : String) :
    verifySignature dom i (Signature.garbage g) = false := by
  unfold verifySignature digestRecover
  rcases hd : computeDigest dom i with e | d <;> simp [recoverAddress]

lemma hash_ok_elim (i h : SignedIntent)
    (hh : getSignedIntentHash i = Except.ok h) :
    h = i ∧ isAddress i.fromToken = true ∧ isAddress i.toToken = true ∧
      isAddress i.recipient = true := by
  unfold getSignedIntentHash at hh
  split at hh
  · next hc =>
    cases hh
    simp only [Bool.and_eq_true] at hc
    exact ⟨rfl, hc.1.1.1.1.1.1, hc.1.1.1.1.1.2, hc.1.1.1.1.2⟩
  · cases hh

lemma validate_sig_fail (dom : Nat) (now : Int) (nonces : Addr → Nat)
    (dedup : List SignedIntent) (i : SignedIntent) (s : Signature)
    (hh : getSignedIntentHash i = Except.ok i)
    (ham : 0 < i.amountIn) (hmo : 0 < i.minAmountOut)
    (hdl : now < i.deadline) (hmem : i ∉ dedup)
    (hv : verifySignature dom i s = false) :
    validateSignedIntent dom now nonces dedup i (some s) =
      Except.error VErr.invalidSignature := by
  obtain ⟨-, hfa, hta, hra⟩ := hash_ok_elim i i hh
  unfold validateSignedIntent
  rw [hfa, hta, hra]
  simp only [Bool.not_true, Bool.or_self, Bool.false_or, if_neg (Bool.false_ne_true)]
  rw [if_neg (by omega : ¬ (i.amountIn ≤ 0 ∨ i.minAmountOut ≤ 0))]
  rw [if_neg (by omega : ¬ (i.deadline ≤ now))]
  rw [hh]
  simp [hmem, hv]

lemma validate_nonce_fail (dom : Nat) (now : Int) (nonces : Addr → Nat)
    (dedup : List SignedIntent) (i : SignedIntent) (s : Signature)
    (hh : getSignedIntentHash i = Except.ok i)
    (ham : 0 < i.amountIn) (hmo : 0 < i.minAmountOut)
    (hdl : now < i.deadline) (hmem : i ∉ dedup)
    (hv : verifySignature dom i s = true)
    (hn : i.nonce ≠ (nonces i.recipient : Int)) :
    validateSignedIntent dom now nonces dedup i (some s) =
      Except.error VErr.nonceMismatch := by
  obtain ⟨-, hfa, hta, hra⟩ := hash_ok_elim i i hh
  unfold validateSignedIntent
  rw [hfa, hta, hra]
  simp only [Bool.not_true, Bool.or_self, Bool.false_or, if_neg (Bool.false_ne_true)]
  rw [if_neg (by omega : ¬ (i.amountIn ≤ 0 ∨ i.minAmountOut ≤ 0))]
  rw [if_neg (by omega : ¬ (i.deadline ≤ now))]
  rw [hh]
  simp [hmem, hv, hn]

lemma trySignedSwap_cases (cfg : Config) (env : Env) (o : TxOutcome)
    (st : RelayerState) (i : SignedIntent) (s : Signature) :
    (∃ txs, trySignedSwap cfg env o st i s =
      (Except.ok (),
        ⟨st.processedIntents, i :: st.processedSignedIntents, st.nonce + 1⟩,
        txs)) ∨
    (∃ e txs, trySignedSwap cfg env o st i s = (Except.error e, st, txs)) := by
  unfold trySignedSwap
  rcases hv : validateSignedIntent env.dom env.now env.nonces
      st.processedSignedIntents i (some s) with e | u
  · exact Or.inr ⟨_, _, rfl⟩
  · by_cases hg : cfg.maxGasPrice < env.gasPrice
    · rw [if_pos hg]
      exact Or.inr ⟨_, _, rfl⟩
    · rw [if_neg hg]
      cases o with
      | confirmed => exact Or.inl ⟨_, rfl⟩
      | failed e => exact Or.inr ⟨_, _, rfl⟩

lemma tryFulfill_cases (cfg : Config) (env : Env) (o : TxOutcome)
    (st : RelayerState) (id : Nat) :
    (∃ txs, tryFulfill cfg env o st id =
      (Except.ok (),
        ⟨id :: st.processedIntents, st.processedSignedIntents, st.nonce + 1⟩,
        txs)) ∨
    (∃ e txs, tryFulfill cfg env o st id = (Except.error e, st, txs)) := by
  unfold tryFulfill
  by_cases hg : cfg.maxGasPrice < env.gasPrice
  · rw [if_pos hg]
    exact Or.inr ⟨_, _, rfl⟩
  · rw [if_neg hg]
    rcases he : env.estimateFulfill id with _ | g
    · exact Or.inr ⟨_, _, rfl⟩
    · cases o with
      | confirmed => exact Or.inl ⟨_, rfl⟩
      | failed e => exact Or.inr ⟨_, _, rfl⟩

lemma catchNonce_ok (env : Env) (st1 : RelayerState) (txs : List Tx) :
    catchNonce env (Except.ok (), st1, txs) = ⟨⟨true, none⟩, st1, txs⟩ := rfl

lemma catchNonce_error (env : Env) (e : ExecError) (st1 : RelayerState)
    (txs : List Tx) :
    catchNonce env (Except.error e, st1, txs) =
      ⟨⟨false, some e⟩,
        if errNonceRelated e then
          ⟨st1.processedIntents, st1.processedSignedIntents, env.txCount⟩
        else st1,
        txs⟩ := rfl

lemma trySignedSwap_txs_value (cfg : Config) (env : Env) (o : TxOutcome)
    (st : RelayerState) (i : SignedIntent) (s : Signature) (tx : Tx)
    (h : tx ∈ (trySignedSwap cfg env o st i s).2.2) :
    tx.value = (if i.fromToken = ethAddr then some i.amountIn else none) := by
  unfold trySignedSwap at h
  rcases hv : validateSignedIntent env.dom env.now env.nonces
      st.processedSignedIntents i (some s) with e | u <;> rw [hv] at h
  · simp at h
  · by_cases hg : cfg.maxGasPrice < env.gasPrice
    · rw [if_pos hg] at h
      simp at h
    · rw [if_neg hg] at h
      cases o with
      | confirmed =>
        simp at h
        rw [h]
      | failed e =>
        simp at h
        rw [h]

lemma keepStored_markStored (cfg : Config) (env : Env) (st : RelayerState)
    (i j : Nat) (hne : j ≠ i) :
    keepStored cfg env (markStored i st) j = keepStored cfg env st j := by
  unfold keepStored markStored
  rw [show decide (j ∈ i :: st.processedIntents) =
      decide (j ∈ st.processedIntents) from
    decide_eq_decide.mpr (by simp [hne])]

lemma keepStored_dropped_mem (cfg : Config) (env : Env) (st : RelayerState)
    (i : Nat) (hm : i ∈ st.processedIntents) :
    keepStored cfg env st i = false := by
  unfold keepStored
  simp [hm]

lemma scanLoop_fst (cfg : Config) (env : Env) :
    ∀ (l : List Nat) (st : RelayerState), l.Nodup →
      (scanLoop cfg env l st).fst =
        (l.filter (keepStored cfg env st)).map (fun i => (i, env.intents i)) := by
  intro l
  induction l with
  | nil => intro st hnd; rfl
  | cons i rest ih =>
    intro st hnd
    have hni : i ∉ rest := (List.nodup_cons.mp hnd).1
    have hrest : rest.Nodup := (List.nodup_cons.mp hnd).2
    have hcongr : ∀ st1 : RelayerState,
        rest.filter (keepStored cfg env (markStored i st1)) =
          rest.filter (keepStored cfg env st1) := by
      intro st1
      refine List.filter_congr ?_
      intro j hj
      exact keepStored_markStored cfg env st1 i j (fun h => hni (h ▸ hj))
    unfold scanLoop
    by_cases hm : i ∈ st.processedIntents
    · rw [if_pos hm, ih st hrest]
      rw [List.filter_cons, keepStored_dropped_mem cfg env st i hm]
      rfl
    · rw [if_neg hm]
      by_cases hterm : ((env.intents i).id = 0 || (env.intents i).fulfilled ||
          (env.intents i).cancelled) = true
      · rw [if_pos hterm, ih (markStored i st) hrest, hcongr st]
        have hk : keepStored cfg env st i = false := by
          unfold keepStored
          simp only [Bool.or_eq_true, decide_eq_true_eq] at hterm
          rcases hterm with (h | h) | h <;> simp [h]
        rw [List.filter_cons, hk]
        rfl
      · rw [if_neg hterm]
        by_cases hexp : (env.intents i).deadline < env.now
        · rw [if_pos hexp, ih (markStored i st) hrest, hcongr st]
          have hk : keepStored cfg env st i = false := by
            unfold keepStored
            simp [hexp]
          rw [List.filter_cons, hk]
          rfl
        · rw [if_neg hexp]
          by_cases hprof : isIntentProfitable cfg env (env.intents i) = true
          · rw [if_pos hprof]
            have hk : keepStored cfg env st i = true := by
              unfold keepStored
              simp only [Bool.or_eq_true, decide_eq_true_eq, not_or] at hterm
              simp [hm, hexp, hprof, hterm.1.1, hterm.1.2, hterm.2]
            dsimp only
            rw [ih st hrest, List.filter_cons, hk]
            rfl
          · rw [if_neg hprof, ih st hrest]
            have hk : keepStored cfg env st i = false := by
              unfold keepStored
              simp [Bool.eq_false_iff.mpr hprof]
            rw [List.filter_cons, hk]
            rfl

/-- Environment with a gas price of 1 wei, far below any threshold. -/
def env7 : Env := { env3 with gasPrice := 1 }

/-- A stored intent of 0.005 ether — above the configured 0.001-ether
minimum, below the hardcoded 0.01-ether floor. -/
def smallIntent : StoredIntent := { liveStored 1 with amountIn := 5 * 10 ^ 15 }

/-- Claim C7, counterexample: an intent of 0.005 ether at gas price 1 wei
satisfies the claim's acceptance condition (at or above the configured
0.001-ether minimum, estimated cost far below one tenth of the input) yet
`isIntentProfitable` rejects it, because the code hardcodes a 0.01-ether
floor and never consults MIN_PROFIT_WEI. -/
theorem C7_min_size_cex :
    isIntentProfitable defaultConfig env7 smallIntent = false ∧
    defaultConfig.minProfitWei ≤ smallIntent.amountIn ∧
    env7.gasPrice * defaultConfig.gasLimit ≤ smallIntent.amountIn / 10 := by
  decide

/-- Claim C7 (amended): the default profitability policy accepts exactly
when the input amount is at least the hardcoded 0.01 ether (10^16 wei —
not the configurable MIN_PROFT_WEI) and the estimated cost
(gas price x configured gas limit) is strictly below one tenth (integer
division) of the input amount; equivalently it rejects when the cost
reaches or exceeds that tenth, or the input is below the hardcoded
floor. -/
theorem C7_profitability_policy (cfg : Config) (env : Env) (i : StoredIntent) :
    isIntentProfitable cfg env i =
      (decide (10 ^ 16 ≤ i.amountIn) &&
        decide (env.gasPrice * cfg.gasLimit < i.amountIn / 10)) := by
  unfold isIntentProfitable
  rcases Nat.lt_or_ge i.amountIn (10 ^ 16) with h | h
  · rw [if_pos h]
    have hn : ¬ (10 ^ 16 ≤ i.amountIn) := by omega
    rw [decide_eq_false hn, Bool.false_and]
  · rw [if_neg (by omega : ¬ i.amountIn < 10 ^ 16)]
    rw [decide_eq_true h, Bool.true_and]

/-- Claim C8, counterexample: with latest counter 5, identifiers 1 and 2
already in the registry, and 3 and 4 live and profitable, the code's scan
yields [3, 4] — ascending identifier order — while the spec's backward
iteration from the latest counter value would yield [4, 3]. -/
theorem C8_scan_order_cex :
    (getUnfulfilledIntents defaultConfig env8 st8).fst.map Prod.fst =
      [3, 4] ∧
    backwardScanSpec 100 env8 st8 = [4, 3] ∧
    ([3, 4] : List Nat) ≠ [4, 3] := by decide

/-- Claim C8 (amended): on each cycle the stored-intent feed scans the
window of the (at most) 100 identifiers below the latest counter value —
the window size is hardcoded, not configurable — iterating forward in
ascending order, and yields exactly those identifiers that are not already
in the Dedup Registry, exist, are neither fulfilled nor cancelled, are not
past deadline, and pass the profitability guard, in ascending order. -/
theorem C8_scan_characterization (cfg : Config) (env : Env)
    (st : RelayerState) :
    (getUnfulfilledIntents cfg env st).fst =
      ((scanIds env.nextIntentId).filter (keepStored cfg env st)).map
        (fun i => (i, env.intents i)) :=
  scanLoop_fst cfg env (scanIds env.nextIntentId) st
    (by unfold scanIds; exact List.nodup_range' _ _)

/-- Claim C4: whenever the current gas price strictly exceeds the
configured ceiling, neither execution path submits any transaction —
both throw before constructing the ledger call. -/
theorem C4_gas_ceiling_no_submission (cfg : Config) (env : Env)
    (o : TxOutcome) (st : RelayerState) (i : SignedIntent) (s : Signature)
    (id : Nat) (h : cfg.maxGasPrice < env.gasPrice) :
    (executeSignedSwap cfg env o st i s).txs = [] ∧
    (fulfillStoredIntent cfg env o st id).txs = [] := by
  constructor
  · unfold executeSignedSwap trySignedSwap
    rcases hv : validateSignedIntent env.dom env.now env.nonces
        st.processedSignedIntents i (some s) with e | u
    · rfl
    · dsimp only
      rw [if_pos h]
      rfl
  · unfold fulfillStoredIntent tryFulfill
    rw [if_pos h]
    rfl

/-- The fixture environment with a gas price of 100 gwei, above the
default 50 gwei ceiling. -/
def envHighGas : Env := { env3 with gasPrice := 10 ^ 11 }

/-- Witness for C4 at a concrete over-ceiling gas price. -/
theorem C4_gas_ceiling_no_submission_witness :
    (executeSignedSwap defaultConfig envHighGas TxOutcome.confirmed st0
      c3Intent c3Sig).txs = [] ∧
    (fulfillStoredIntent defaultConfig envHighGas TxOutcome.confirmed st0
      1).txs = [] :=
  C4_gas_ceiling_no_submission defaultConfig envHighGas TxOutcome.confirmed
    st0 c3Intent c3Sig 1 (by decide)

/-- Claim C2, counterexample: an intent whose nonce (9) mismatches the
ledger counter (0) and whose signature is also invalid (garbage bytes) is
rejected with InvalidSignature, not NonceMismatch — the code checks the
signature before the nonce, contrary to the claimed order. -/
theorem C2_sig_checked_before_nonce_cex :
    validateSignedIntent 7 1000 env3.nonces [] c5Intent
      (some (Signature.garbage (""))) = Except.error VErr.invalidSignature ∧
    c5Intent.nonce ≠ (env3.nonces c5Intent.recipient : Int) ∧
    (Except.error VErr.invalidSignature : Except VErr Unit) ≠
      Except.error VErr.nonceMismatch := by
  decide

/-- Claim C2 (amended): the Validator short-circuits in the order
structural, temporal, terminal-state (dedup), cryptographic, nonce — the
signature check precedes the nonce check, so when the earlier checks pass,
an invalid signature is reported as InvalidSignature even if the nonce
also mismatches, and NonceMismatch is reported only when the signature is
valid. -/
theorem C2_validation_order (dom : Nat) (now : Int) (nonces : Addr → Nat)
    (dedup : List SignedIntent) (i : SignedIntent) (s : Signature)
    (hh : getSignedIntentHash i = Except.ok i)
    (ham : 0 < i.amountIn) (hmo : 0 < i.minAmountOut)
    (hdl : now < i.deadline) (hmem : i ∉ dedup) :
    (verifySignature dom i s = false →
      validateSignedIntent dom now nonces dedup i (some s) =
        Except.error VErr.invalidSignature) ∧
    (verifySignature dom i s = true →
      i.nonce ≠ (nonces i.recipient : Int) →
      validateSignedIntent dom now nonces dedup i (some s) =
        Except.error VErr.nonceMismatch) :=
  ⟨fun hv => validate_sig_fail dom now nonces dedup i s hh ham hmo hdl hmem hv,
   fun hv hn =>
     validate_nonce_fail dom now nonces dedup i s hh ham hmo hdl hmem hv hn⟩

/-- Witness for C2 at the concrete bad-nonce bad-signature input. -/
theorem C2_validation_order_witness :
    validateSignedIntent 7 1000 env3.nonces [] c5Intent
      (some (Signature.garbage (""))) = Except.error VErr.invalidSignature :=
  (C2_validation_order 7 1000 env3.nonces [] c5Intent (Signature.garbage (""))
    (by decide) (by decide) (by decide) (by decide) (by decide)).1 (by decide)

/-- Fixture `c3Intent` with its deadline moved into the past after signing. -/
def c6MutDeadline : SignedIntent := { c3Intent with deadline := 0 }

/-- Fixture `c3Intent` with its input amount changed after signing. -/
def c6MutAmount : SignedIntent := { c3Intent with amountIn := 101 }

/-- Claim C6, counterexample: mutating the deadline field of a genuinely
signed intent to a past time is rejected with Expired, not
InvalidSignature — the temporal check fires before the signature is ever
examined, so the claim does not hold for all single-field mutations. -/
theorem C6_mutation_cex :
    verifySignature 7 c3Intent c3Sig = true ∧
    c6MutDeadline ≠ c3Intent ∧
    validateSignedIntent 7 1000 env3.nonces [] c6MutDeadline (some c3Sig) =
      Except.error VErr.expired ∧
    (Except.error VErr.expired : Except VErr Unit) ≠
      Except.error VErr.invalidSignature := by
  decide

/-- Claim C6 (amended): for a signed intent with a valid signature, any
mutation producing a different intent that still passes the structural,
temporal and dedup checks recovers no valid signer for the new digest and
is rejected with InvalidSignature. -/
theorem C6_mutation_rejected (dom : Nat) (now : Int) (nonces : Addr → Nat)
    (dedup : List SignedIntent) (i i' : SignedIntent) (s : Signature)
    (hval : verifySignature dom i s = true) (hne : i' ≠ i)
    (hh : getSignedIntentHash i' = Except.ok i')
    (ham : 0 < i'.amountIn) (hmo : 0 < i'.minAmountOut)
    (hdl : now < i'.deadline) (hmem : i' ∉ dedup) :
    validateSignedIntent dom now nonces dedup i' (some s) =
      Except.error VErr.invalidSignature := by
  refine validate_sig_fail dom now nonces dedup i' s hh ham hmo hdl hmem ?_
  obtain ⟨d, r, hcd, hr, rfl⟩ := verify_true_elim dom i s hval
  unfold verifySignature digestRecover
  rcases hcd2 : computeDigest dom i' with e | d2
  · rfl
  · have hdd : d ≠ d2 := fun h =>
      hne (computeDigest_inj dom i' i d2 hcd2 (h ▸ hcd))
    dsimp only [recoverAddress]
    rw [if_neg hdd]
    rcases hr2 : addrNat i'.recipient with _ | r2
    · rfl
    · have hlt := (addrNat_some _ _ hr2).2
      have hns : strayRecoveredAddr ≠ r2 := by
        intro h
        rw [← h] at hlt
        exact absurd hlt (lt_irrefl _)
      simp [hns]

/-- Witness for C6: the spec scenario intent with amountIn changed from
100 to 101 after signing is rejected with InvalidSignature. -/
theorem C6_mutation_rejected_witness :
    validateSignedIntent 7 1000 env3.nonces [] c6MutAmount (some c3Sig) =
      Except.error VErr.invalidSignature :=
  C6_mutation_rejected 7 1000 env3.nonces [] c3Intent c6MutAmount c3Sig
    (by decide) (by decide) (by decide) (by decide) (by decide) (by decide)
    (by decide)

/-- Claim C10: signature verification is total — `verifySignature` returns
false whenever digest computation or recovery throws internally, and with
the earlier checks passing the Validator reports InvalidSignature for any
malformed signature bytes instead of propagating the error. -/
theorem C10_verification_total :
    (∀ (dom : Nat) (i : SignedIntent) (s : Signature) (e : String),
      digestRecover dom i s = Except.error e →
      verifySignature dom i s = false) ∧
    (∀ (dom : Nat) (now : Int) (nonces : Addr → Nat)
        (dedup : List SignedIntent) (i : SignedIntent) (g : String),
      getSignedIntentHash i = Except.ok i → 0 < i.amountIn →
      0 < i.minAmountOut → now < i.deadline → i ∉ dedup →
      validateSignedIntent dom now nonces dedup i
        (some (Signature.garbage g)) = Except.error VErr.invalidSignature) := by
  constructor
  · intro dom i s e h
    unfold verifySignature
    rw [h]
  · intro dom now nonces dedup i g hh ham hmo hdl hmem
    exact validate_sig_fail dom now nonces dedup i (Signature.garbage g) hh
      ham hmo hdl hmem (verify_garbage_false dom i g)

/-- Witness for C10 at concrete malformed signature bytes. -/
theorem C10_verification_total_witness :
    verifySignature 7 c3Intent (Signature.garbage ("0xdead")) = false ∧
    validateSignedIntent 7 1000 env3.nonces [] c3Intent
      (some (Signature.garbage ("0xdead"))) =
      Except.error VErr.invalidSignature :=
  ⟨C10_verification_total.1 7 c3Intent (Signature.garbage ("0xdead"))
      ("invalid signature bytes") (by decide),
    C10_verification_total.2 7 1000 env3.nonces [] c3Intent ("0xdead")
      (by decide) (by decide) (by decide) (by decide) (by decide)⟩

/-- Claim C5, counterexample: a failure that is not a relayer-sequence
failure — the Validator's intent-nonce mismatch, thrown before any
transaction is submitted — nevertheless changes the local sequence
counter (from 5 to the ledger's 3), because the catch handler classifies
any error whose message contains "nonce" as sequence-related.  The claim
says the counter is left unchanged on non-sequence-related failures. -/
theorem C5_validation_nonce_resync_cex :
    (executeSignedSwap defaultConfig env5 TxOutcome.confirmed st5 c5Intent
      c5Sig).result.success = false ∧
    (executeSignedSwap defaultConfig env5 TxOutcome.confirmed st5 c5Intent
      c5Sig).txs = [] ∧
    st5.nonce = 5 ∧
    (executeSignedSwap defaultConfig env5 TxOutcome.confirmed st5 c5Intent
      c5Sig).state.nonce = 3 ∧
    (3 : Nat) ≠ 5 := by
  decide

/-- Claim C5 (amended): on confirmation each execution path records the
intent's hash (signed) or identifier (stored) in the Dedup Registry and
advances the local counter by exactly one; on failure nothing is recorded
and the counter is resynchronized from the ledger's transaction count
exactly when the code classifies the caught error as nonce-related (its
code is NONCE_EXPIRED or its message contains "nonce" — which includes the
Validator's intent-nonce mismatch), and is left unchanged otherwise. -/
theorem C5_terminal_bookkeeping (cfg : Config) (env : Env) (o : TxOutcome)
    (st : RelayerState) (i : SignedIntent) (s : Signature) (id : Nat) :
    (((executeSignedSwap cfg env o st i s).result.success = true →
        (executeSignedSwap cfg env o st i s).state.processedSignedIntents =
          i :: st.processedSignedIntents ∧
        (executeSignedSwap cfg env o st i s).state.nonce = st.nonce + 1) ∧
      ((executeSignedSwap cfg env o st i s).result.success = false →
        (executeSignedSwap cfg env o st i s).state.processedSignedIntents =
          st.processedSignedIntents ∧
        ∃ e, (executeSignedSwap cfg env o st i s).result.error = some e ∧
          (executeSignedSwap cfg env o st i s).state.nonce =
            (if errNonceRelated e then env.txCount else st.nonce))) ∧
    (((fulfillStoredIntent cfg env o st id).result.success = true →
        (fulfillStoredIntent cfg env o st id).state.processedIntents =
          id :: st.processedIntents ∧
        (fulfillStoredIntent cfg env o st id).state.nonce = st.nonce + 1) ∧
      ((fulfillStoredIntent cfg env o st id).result.success = false →
        (fulfillStoredIntent cfg env o st id).state.processedIntents =
          st.processedIntents ∧
        ∃ e, (fulfillStoredIntent cfg env o st id).result.error = some e ∧
          (fulfillStoredIntent cfg env o st id).state.nonce =
            (if errNonceRelated e then env.txCount else st.nonce))) := by
  constructor
  · rcases trySignedSwap_cases cfg env o st i s with ⟨txs, hts⟩ | ⟨e, txs, hts⟩
    · constructor
      · intro _
        unfold executeSignedSwap
        rw [hts, catchNonce_ok]
        exact ⟨rfl, rfl⟩
      · intro hfalse
        unfold executeSignedSwap at hfalse
        rw [hts, catchNonce_ok] at hfalse
        simp at hfalse
    · constructor
      · intro htrue
        unfold executeSignedSwap at htrue
        rw [hts, catchNonce_error] at htrue
        simp at htrue
      · intro _
        unfold executeSignedSwap
        rw [hts, catchNonce_error]
        refine ⟨?_, e, rfl, ?_⟩
        · by_cases hc : errNonceRelated e = true
          · rw [if_pos hc]
          · rw [if_neg hc]
        · by_cases hc : errNonceRelated e = true
          · rw [if_pos hc, if_pos hc]
          · rw [if_neg hc, if_neg hc]
  · rcases tryFulfill_cases cfg env o st id with ⟨txs, hts⟩ | ⟨e, txs, hts⟩
    · constructor
      · intro _
        unfold fulfillStoredIntent
        rw [hts, catchNonce_ok]
        exact ⟨rfl, rfl⟩
      · intro hfalse
        unfold fulfillStoredIntent at hfalse
        rw [hts, catchNonce_ok] at hfalse
        simp at hfalse
    · constructor
      · intro htrue
        unfold fulfillStoredIntent at htrue
        rw [hts, catchNonce_error] at htrue
        simp at htrue
      · intro _
        unfold fulfillStoredIntent
        rw [hts, catchNonce_error]
        refine ⟨?_, e, rfl, ?_⟩
        · by_cases hc : errNonceRelated e = true
          · rw [if_pos hc]
          · rw [if_neg hc]
        · by_cases hc : errNonceRelated e = true
          · rw [if_pos hc, if_pos hc]
          · rw [if_neg hc, if_neg hc]

/-- Witness for C5: the confirmed execution of the scenario intent
advances the local counter by exactly one. -/
theorem C5_terminal_bookkeeping_witness :
    (executeSignedSwap defaultConfig env3 TxOutcome.confirmed st0 c3Intent
      c3Sig).state.nonce = st0.nonce + 1 :=
  ((C5_terminal_bookkeeping defaultConfig env3 TxOutcome.confirmed st0
    c3Intent c3Sig 0).1.1 (by decide)).2

lemma catchNonce_txs (env : Env)
    (r : Except ExecError Unit × RelayerState × List Tx) :
    (catchNonce env r).txs = r.2.2 := by
  rcases r with ⟨f, st1, txs⟩
  cases f <;> rfl

/-- Claim C9: the relayer attaches a transaction value equal to the
intent's amountIn exactly when the source asset is the zero address
(native ETH) and no value otherwise, and the ledger contract's
`executeSwap` only succeeds when `msg.value` equals amountIn exactly in
the ETH case (and equals zero in the token case). -/
theorem C9_eth_value_attached :
    (∀ (cfg : Config) (env : Env) (o : TxOutcome) (st : RelayerState)
        (i : SignedIntent) (s : Signature) (tx : Tx),
      tx ∈ (executeSignedSwap cfg env o st i s).txs →
      tx.value = (if i.fromToken = ethAddr then some i.amountIn else none)) ∧
    (∀ (nn : Addr → Nat) (ts : Int) (dom : Nat) (j : SignedIntent)
        (sg : Signature) (v : Int),
      j.fromToken = ethAddr →
      contractExecuteSwap nn ts dom j sg v = Except.ok () →
      v = j.amountIn) ∧
    (∀ (nn : Addr → Nat) (ts : Int) (dom : Nat) (j : SignedIntent)
        (sg : Signature) (v : Int),
      j.fromToken ≠ ethAddr →
      contractExecuteSwap nn ts dom j sg v = Except.ok () →
      v = 0) := by
  refine ⟨?_, ?_, ?_⟩
  · intro cfg env o st i s tx h
    unfold executeSignedSwap at h
    rw [catchNonce_txs env (trySignedSwap cfg env o st i s)] at h
    exact trySignedSwap_txs_value cfg env o st i s tx h
  · intro nn ts dom j sg v hfrom h
    unfold contractExecuteSwap at h
    split at h
    · exact Except.noConfusion h
    split at h
    · exact Except.noConfusion h
    split at h
    · exact Except.noConfusion h
    split at h
    · exact Except.noConfusion h
    split at h
    · exact Except.noConfusion h
    split at h
    · exact Except.noConfusion h
    split at h
    · exact Except.noConfusion h
    split at h
    · exact Except.noConfusion h
    split at h
    · exact Except.noConfusion h
    try rw [if_pos hfrom] at h
    split at h
    · exact Except.noConfusion h
    · rename_i hcond
      exact not_ne_iff.mp hcond
  · intro nn ts dom j sg v hfrom h
    unfold contractExecuteSwap at h
    split at h
    · exact Except.noConfusion h
    split at h
    · exact Except.noConfusion h
    split at h
    · exact Except.noConfusion h
    split at h
    · exact Except.noConfusion h
    split at h
    · exact Except.noConfusion h
    split at h
    · exact Except.noConfusion h
    split at h
    · exact Except.noConfusion h
    split at h
    · exact Except.noConfusion h
    split at h
    · exact Except.noConfusion h
    try rw [if_neg hfrom] at h
    split at h
    · exact Except.noConfusion h
    · rename_i hcond
      exact not_ne_iff.mp hcond

/-- Witness for C9: the scenario execution submits exactly the
executeSwap transaction carrying value 100 (= amountIn) for the
ETH-source intent, and a concrete accepting contract call pins
msg.value to amountIn. -/
theorem C9_eth_value_attached_witness :
    (⟨TxKind.executeSwap c3Intent c3Sig, some 100, 120000, 10 ^ 9, 0⟩ :
        Tx).value =
      (if c3Intent.fromToken = ethAddr then some c3Intent.amountIn
       else none) ∧
    (100 : Int) = c3Intent.amountIn :=
  ⟨C9_eth_value_attached.1 defaultConfig env3 TxOutcome.confirmed st0
      c3Intent c3Sig _ (by decide),
    C9_eth_value_attached.2.1 env3.nonces 1000 7 c3Intent c3Sig 100
      (by decide) (by decide)⟩

/-- Claim C3, counterexample: after the relayer successfully executes the
spec §8 scenario intent, resubmitting the identical (intent, signature)
pair is rejected with AlreadyTerminal ("Intent already processed"), not
NonceMismatch — the dedup-registry check precedes the nonce check. -/
theorem C3_resubmission_cex :
    validateSignedIntent 7 1000 nonces3After
      ((executeSignedSwap defaultConfig env3 TxOutcome.confirmed st0
          c3Intent c3Sig).state.processedSignedIntents) c3Intent
      (some c3Sig) = Except.error VErr.alreadyProcessed ∧
    (Except.error VErr.alreadyProcessed : Except VErr Unit) ≠
      Except.error VErr.nonceMismatch := by
  decide

/-- Claim C3 (amended): the scenario intent (nonce 0 equal to the ledger
counter, future deadline, valid signature) executes successfully and its
hash enters the Dedup Registry; resubmitting the identical pair is then
rejected with AlreadyTerminal because the registry check fires first,
while a relayer without that registry entry would reject it with
NonceMismatch because the ledger's counter is now 1. -/
theorem C3_resubmission_amended :
    (executeSignedSwap defaultConfig env3 TxOutcome.confirmed st0 c3Intent
      c3Sig).result.success = true ∧
    (executeSignedSwap defaultConfig env3 TxOutcome.confirmed st0 c3Intent
      c3Sig).state.processedSignedIntents = [c3Intent] ∧
    validateSignedIntent 7 1000 nonces3After [c3Intent] c3Intent
      (some c3Sig) = Except.error VErr.alreadyProcessed ∧
    validateSignedIntent 7 1000 nonces3After [] c3Intent (some c3Sig) =
      Except.error VErr.nonceMismatch := by
  decide

/-- Claim C1 (code bug): under a realizable interleaving of the two
discovery triggers — the scheduled scan collects a live intent, the
IntentCreated push handler for the same identifier then runs to
confirmation, and the scan loop then fulfills its previously collected
list — the relayer submits two fulfillment transactions for the same
stored-intent identifier, not exactly one: the push handler executes
directly rather than through a serialized queue, and
`fulfillStoredIntent` never rechecks the Dedup Registry. -/
theorem C1_race_double_submission :
    countFulfillTx
      (raceScenario defaultConfig env1 TxOutcome.confirmed
        [TxOutcome.failed alreadyFulfilledErr] st0 1).snd 1 = 2 ∧
    (2 : Nat) ≠ 1 := by
  decide
